import Mathlib

/-!
# Slingpunk combat core: a shallow embedding

This file embeds the combat-resolution core of the Slingpunk game
(`src/game/Game.ts`, `src/game/entities/Enemy.ts`,
`src/game/waves/WaveManager.ts`, `src/game/waves/enemyModifiers.ts`) into
Lean 4 and proves the test-oriented properties of its specification.

JavaScript numbers are modelled as rationals (`ℚ`); `Math.round` is
modelled as rounding half toward positive infinity, `Math.floor` as
`Int.floor`, and `Math.max`/`Math.min` as `max`/`min`.  Rendering-only
state (particles, colors, HUD widgets, screen shake) is out of the
embedded core, exactly as the specification scopes it out.
-/

namespace Slingpunk

/-- The clamp helper from `src/game/utils.ts`:
`(value, min, max) => Math.max(min, Math.min(max, value))`. -/
def clamp (value lo hi : ℚ) : ℚ := max lo (min hi value)

/-- JavaScript `Math.round`: rounds half toward positive infinity. -/
def jsRound (x : ℚ) : ℤ := ⌊x + 1 / 2⌋

/-! ## Adversary base class (`src/game/entities/Enemy.ts`)

The base-class combat state of an adversary: hp, shield, alive flag,
elite/boss flags, and the slow/knockback effect channels.  Position,
velocity and per-variant behavior are not needed by the claims about
`takeDamage` / `applySlow` / `applyKnockback`, which only touch these
fields. -/
structure Enemy where
  hp : ℚ
  maxHp : ℚ
  shield : ℚ
  alive : Bool
  isBoss : Bool
  isElite : Bool
  slowTimer : ℚ
  slowFactor : ℚ
  knockback : ℚ
  deriving DecidableEq, Repr

/-- `Enemy.takeDamage` (Enemy.ts lines 108–132): drains `shield` first,
carries the overflow into `hp`, and marks the adversary dead when `hp`
drops to `0` or below.  The `onDamaged`/`onDeath`/`onEnemyKilled`
callbacks are side effects on the game object and are modelled by the
resulting `alive` flag. -/
def takeDamage (amount : ℚ) (e : Enemy) : Enemy :=
  if e.alive = false then e
  else
    let remaining := amount
    let p : ℚ × ℚ :=
      if 0 < e.shield then
        let s := e.shield - remaining
        if s ≤ 0 then (0, -s) else (s, 0)
      else (e.shield, remaining)
    let e1 : Enemy := { e with shield := p.1 }
    if 0 < p.2 then
      let hp := e1.hp - p.2
      if hp ≤ 0 then { e1 with hp := hp, alive := false }
      else { e1 with hp := hp }
    else e1

/-- `Enemy.applySlow` (Enemy.ts lines 138–141):
`slowTimer = max(slowTimer, duration)`;
`slowFactor = min(slowFactor, max(0.1, factor))`. -/
def applySlow (duration factor : ℚ) (e : Enemy) : Enemy :=
  { e with
    slowTimer := max e.slowTimer duration
    slowFactor := min e.slowFactor (max (1 / 10) factor) }

/-- `Enemy.applyKnockback` (Enemy.ts lines 143–145):
`knockback = max(knockback, force)`. -/
def applyKnockback (force : ℚ) (e : Enemy) : Enemy :=
  { e with knockback := max e.knockback force }

/-! ## Draft re-entry guard (`Game.beginModifierDraft`, Game.ts 391–399) -/

/-- The game state fields read and written by the entry guard of
`Game.beginModifierDraft`. -/
structure DraftState where
  drafting : Bool
  pauseLocked : Bool
  paused : Bool
  lives : ℤ
  deriving DecidableEq, Repr

/-- The synchronous entry of `Game.beginModifierDraft` (Game.ts 391–399):
`if (this.drafting || this.lives <= 0) return;` then set the
drafting/pause flags.  Returns the updated state and whether a draft was
actually started. -/
def beginModifierDraft (s : DraftState) : DraftState × Bool :=
  if s.drafting = true ∨ s.lives ≤ 0 then (s, false)
  else ({ s with drafting := true, pauseLocked := true, paused := true }, true)

/-! ## Run modifier state and the damage pipeline (`Game.ts`) -/

/-- `ModifierState` (types.ts plus the damage fields initialized in
`Game.createInitialModifiers`, Game.ts 1408–1422).  `slowEffect` and
`explosion` are optional `(duration, factor)` / `(radius, damage)`
pairs. -/
structure ModifierState where
  orbSizeMultiplier : ℚ
  slowEffect : Option (ℚ × ℚ)
  comboDamagePerTier : ℚ
  knockbackForce : ℚ
  homingStrength : ℚ
  explosion : Option (ℚ × ℚ)
  splitOnImpact : Bool
  tripleLaunch : Bool
  damageMultiplier : ℚ
  comboHeatDamagePercent : ℚ
  bounceDamagePercent : ℚ
  bossDamageMultiplier : ℚ
  wallHitDamageBonusPercent : ℚ
  deriving DecidableEq, Repr

/-- The combat state of a projectile (`src/game/entities/Orb.ts`):
base damage, accumulated wall-bounce count, the one-shot wall-hit
damage bonus, the split flag and the alive flag.  Position, velocity
and color are rendering/physics-geometry state not touched by the
damage pipeline. -/
structure Orb where
  damage : ℚ
  radius : ℚ
  bounceCount : ℕ
  pendingWallDamageBonus : ℚ
  splitOnImpact : Bool
  alive : Bool
  deriving DecidableEq, Repr

/-- The game fields read by the damage pipeline: the run's modifier
state, the current combo heat, and the difficulty's
`playerDamageMultiplier`. -/
structure GameCtx where
  modifiers : ModifierState
  comboHeat : ℚ
  playerDamageMultiplier : ℚ
  deriving DecidableEq, Repr

/-- `Game.isBossOrElite` (Game.ts 1172–1174). -/
def isBossOrElite (e : Enemy) : Bool := e.isBoss || e.isElite

/-- `Game.scalePlayerDamage` (Game.ts 1168–1170). -/
def scalePlayerDamage (g : GameCtx) (amount : ℚ) : ℚ :=
  amount * g.playerDamageMultiplier

/-- The combo-heat stage of `Game.computeOrbDamage` (Game.ts
1144–1148): when `comboHeatDamagePercent > 0`, multiply by
`1 + max(0, comboHeat) * comboHeatDamagePercent`. -/
def applyComboHeatBonus (g : GameCtx) (damage : ℚ) : ℚ :=
  if 0 < g.modifiers.comboHeatDamagePercent then
    damage * (1 + max 0 g.comboHeat * g.modifiers.comboHeatDamagePercent)
  else damage

/-- The bounce stage of `Game.computeOrbDamage` (Game.ts 1150–1152):
when `bounceDamagePercent > 0` and the orb has bounced, multiply by
`1 + bounceCount * bounceDamagePercent`. -/
def applyBounceBonus (g : GameCtx) (orb : Orb) (damage : ℚ) : ℚ :=
  if 0 < g.modifiers.bounceDamagePercent ∧ 0 < orb.bounceCount then
    damage * (1 + (orb.bounceCount : ℚ) * g.modifiers.bounceDamagePercent)
  else damage

/-- The boss stage of `Game.computeOrbDamage` (Game.ts 1154–1156):
when the target is boss or elite and `bossDamageMultiplier > 1`,
multiply by it. -/
def applyBossBonus (g : GameCtx) (enemy : Enemy) (damage : ℚ) : ℚ :=
  if isBossOrElite enemy = true ∧ 1 < g.modifiers.bossDamageMultiplier then
    damage * g.modifiers.bossDamageMultiplier
  else damage

/-- The wall-bonus stage of `Game.computeOrbDamage` (Game.ts
1158–1161): when a pending wall bonus is armed, multiply by
`1 + pendingWallDamageBonus` and zero the bonus on the orb. -/
def applyWallBonus (orb : Orb) (damage : ℚ) : ℚ × Orb :=
  if 0 < orb.pendingWallDamageBonus then
    (damage * (1 + orb.pendingWallDamageBonus), { orb with pendingWallDamageBonus := 0 })
  else (damage, orb)

/-- `Game.computeOrbDamage` (Game.ts 1141–1166): the stages above in
source order, then the flat `tier * comboDamagePerTier` term and the
difficulty scaling.  Returns the damage and the orb with the wall bonus
consumed. -/
def computeOrbDamage (g : GameCtx) (orb : Orb) (enemy : Enemy) : ℚ × Orb :=
  let damage0 := orb.damage * g.modifiers.damageMultiplier
  let damage1 := applyComboHeatBonus g damage0
  let damage2 := applyBounceBonus g orb damage1
  let damage3 := applyBossBonus g enemy damage2
  let p := applyWallBonus orb damage3
  let tier : ℤ := ⌊g.comboHeat / 5⌋
  let damage4 := p.1 + (tier : ℚ) * g.modifiers.comboDamagePerTier
  (scalePlayerDamage g damage4, p.2)

/-- The result of resolving one projectile–adversary collision. -/
structure OrbHitResult where
  enemy : Enemy
  orb : Orb
  damage : ℚ
  deriving DecidableEq, Repr

/-- `Game.resolveOrbHit` (Game.ts 1059–1087), restricted to combat
state: compute the damage, apply it through `takeDamage`, then apply
the modifier-driven slow and knockback to a surviving target.  The
particle spawn, the optional area explosion, and the geometric
split/deflection of the orb act on positions and velocities outside
this combat-state model. -/
def resolveOrbHit (g : GameCtx) (orb : Orb) (enemy : Enemy) : OrbHitResult :=
  let p := computeOrbDamage g orb enemy
  let enemy1 := takeDamage p.1 enemy
  let enemy2 :=
    if enemy1.alive = true then
      let e :=
        match g.modifiers.slowEffect with
        | some se => applySlow se.1 se.2 enemy1
        | none => enemy1
      if 0 < g.modifiers.knockbackForce then
        applyKnockback g.modifiers.knockbackForce e
      else e
    else enemy1
  { enemy := enemy2, orb := p.2, damage := p.1 }

/-- `Game.emitWallHit` (Game.ts 587–595): when called with an orb, it
increments that orb's `bounceCount` and, when the run's
`wallHitDamageBonusPercent` modifier is positive, arms the orb's
one-shot `pendingWallDamageBonus`. -/
def emitWallHit (mods : ModifierState) (o : Option Orb) : Option Orb :=
  o.map fun orb =>
    let orb1 := { orb with bounceCount := orb.bounceCount + 1 }
    if 0 < mods.wallHitDamageBonusPercent then
      { orb1 with pendingWallDamageBonus := mods.wallHitDamageBonusPercent }
    else orb1

/-- Modelled from the spec: the current `Orb.ts` (the revision that
declares `bounceCount` and `pendingWallDamageBonus`, referenced by
`Game.ts`) is absent from the snapshot — the archived `Orb` revisions
predate those fields.  Per §4.1, every wall bounce (left wall, right
wall, or top boundary) reports through `Game.emitWallHit` with the
bouncing orb, i.e. `game.emitWallHit(this.position, this)`. -/
def onWallBounce (mods : ModifierState) (orb : Orb) : Orb :=
  (emitWallHit mods (some orb)).getD orb

/-! ## Tick structure (`Game.update`, Game.ts 900–1041)

The statement groups of `Game.update`, one constructor per group, in
the order the source executes them.  The wave-completion/draft-trigger
check lives inside `WaveManager.update` (WaveManager.ts 34–56), which
`Game.update` calls in its `waveUpdate` statement. -/

/-- One statement group of `Game.update`. -/
inductive TickPhase where
  /-- launch/pause-input cooldown decrements (Game.ts 901–902) -/
  | cooldowns
  /-- `waveManager.update(dt)`: spawning plus the wave-completion and
  draft-trigger check (Game.ts 903; WaveManager.ts 34–56) -/
  | waveUpdate
  /-- aftertouch steering while focus remains (Game.ts 905–912) -/
  | aftertouch
  /-- projectile advancement `orb.update` (Game.ts 914–916) -/
  | orbAdvance
  /-- adversary advancement `enemy.update` (Game.ts 918–922) -/
  | enemyAdvance
  /-- `handleCollisions()` (Game.ts 924) -/
  | collisions
  /-- chain-lightning cooldown/tick (Game.ts 926–933) -/
  | chainLightning
  /-- `orbs = orbs.filter(alive)` (Game.ts 935) -/
  | filterOrbs
  /-- `enemies = enemies.filter(alive)` (Game.ts 936) -/
  | filterEnemies
  /-- combo-heat decay (Game.ts 938–941) -/
  | comboDecay
  /-- particles, floating texts, impact waves, screen shake, wave
  transition (Game.ts 943–1038) -/
  | visualEffects
  /-- `updateHud()` (Game.ts 1040) -/
  | hudUpdate
  deriving DecidableEq, Repr

/-- The body of `Game.update` as its ordered statement groups. -/
def gameUpdatePhases : List TickPhase :=
  [TickPhase.cooldowns, TickPhase.waveUpdate, TickPhase.aftertouch,
   TickPhase.orbAdvance, TickPhase.enemyAdvance, TickPhase.collisions,
   TickPhase.chainLightning, TickPhase.filterOrbs, TickPhase.filterEnemies,
   TickPhase.comboDecay, TickPhase.visualEffects, TickPhase.hudUpdate]

/-- Position of a statement group within the tick. -/
def phaseIndex (p : TickPhase) : ℕ := gameUpdatePhases.indexOf p

/-! ## Wave spawn scheduling (`WaveManager.ts`)

`WaveManager.update` is embedded as a step function over the manager's
state.  The procedural blueprint generation and the random spawn-time
offsets of `loadWave` are abstracted into a `load` function supplying,
for each wave index, the `ActiveSpawn` records the wave starts with —
every reachable loaded wave is some such list.  The live-adversary
count of `game.enemies` at entry is an input; each member spawned
during the call is pushed into that collection before the completion
check reads its length, so the check sees `enemiesAlive + spawnedNow`. -/

/-- One `ActiveSpawn` record of `WaveManager` (WaveManager.ts 6–10):
the scaled group config's `count` and `cadence` plus the mutable
`spawned` / `nextTime` scheduling state. -/
structure ActiveSpawn where
  count : ℕ
  cadence : ℚ
  spawned : ℕ
  nextTime : ℚ
  deriving DecidableEq, Repr

/-- The mutable state of `WaveManager` (WaveManager.ts 12–24) relevant
to scheduling: the active spawn records, the elapsed wave clock, and
the wave index. -/
structure WMState where
  spawns : List ActiveSpawn
  elapsed : ℚ
  waveIndex : ℕ
  deriving DecidableEq, Repr

/-- Observable events of one `WaveManager.update` call, tagged with the
wave index they belong to: a member spawned (`game.spawnEnemy`) or the
wave reported complete (`game.onWaveComplete`). -/
inductive WaveEvent where
  | spawn (wave : ℕ)
  | complete (wave : ℕ)
  deriving DecidableEq, Repr

/-- The wave index an event is tagged with. -/
def WaveEvent.wave : WaveEvent → ℕ
  | .spawn w => w
  | .complete w => w

/-- `spawn.spawned >= spawn.config.count` (WaveManager.ts 41, 49). -/
def groupDone (g : ActiveSpawn) : Bool := decide (g.count ≤ g.spawned)

/-- Whether a group spawns a member this tick (WaveManager.ts 41–42):
not yet done, and the advanced clock has reached its `nextTime`. -/
def groupFires (elapsed : ℚ) (g : ActiveSpawn) : Bool :=
  !groupDone g && decide (g.nextTime ≤ elapsed)

/-- The per-group mutation of the spawn loop (WaveManager.ts 43–45). -/
def stepGroup (elapsed : ℚ) (g : ActiveSpawn) : ActiveSpawn :=
  if groupFires elapsed g = true then
    { g with spawned := g.spawned + 1, nextTime := g.nextTime + g.cadence }
  else g

/-- The lazy `loadWave` at the top of `WaveManager.update`
(WaveManager.ts 35–37): when no spawns are active, load the current
wave's records. -/
def wmLoaded (load : ℕ → List ActiveSpawn) (s : WMState) : WMState :=
  if s.spawns.isEmpty = true then { s with spawns := load s.waveIndex } else s

/-- `WaveManager.update` (WaveManager.ts 34–56): lazily load the wave,
advance the clock, run the spawn loop (at most one member per group per
call), then — if every group is done and no adversary is alive — clear
the spawn records, reset the clock, advance the wave index and report
completion.  Returns the new state and the call's events in order. -/
def wmUpdate (load : ℕ → List ActiveSpawn) (enemiesAlive : ℕ) (dt : ℚ)
    (s : WMState) : WMState × List WaveEvent :=
  let s1 := wmLoaded load s
  let elapsed := s1.elapsed + dt
  let spawnedNow := s1.spawns.countP (groupFires elapsed)
  let spawns := s1.spawns.map (stepGroup elapsed)
  let events := List.replicate spawnedNow (WaveEvent.spawn s1.waveIndex)
  if spawns.all groupDone = true ∧ enemiesAlive + spawnedNow = 0 then
    ({ spawns := [], elapsed := 0, waveIndex := s1.waveIndex + 1 },
     events ++ [WaveEvent.complete s1.waveIndex])
  else
    ({ s1 with spawns := spawns, elapsed := elapsed }, events)

/-- Iterating `WaveManager.update` over a sequence of ticks, each tick
supplying the live-adversary count and the frame delta; collects the
event trace. -/
def wmRun (load : ℕ → List ActiveSpawn) :
    List (ℕ × ℚ) → WMState → WMState × List WaveEvent
  | [], s => (s, [])
  | (en, dt) :: rest, s =>
    let p := wmUpdate load en dt s
    let q := wmRun load rest p.1
    (q.1, p.2 ++ q.2)

/-- Trace ordering: once a wave is reported complete, every later event
belongs to a strictly later wave. -/
def EventOrder (e1 e2 : WaveEvent) : Prop :=
  ∀ w, e1 = WaveEvent.complete w → w < e2.wave

/-! ## Kill scoring (`Game.onEnemyKilled`, Game.ts 543–557) -/

/-- The score/combo portion of `Game.onEnemyKilled` (Game.ts 543–557):
`baseScore = 100 + maxHp * 15`, `tier = floor(comboHeat / 5)`,
`multiplier = 1 + tier * 0.1`, `delta = round(baseScore * multiplier)`;
the combo heat is incremented only after the delta is computed.  Returns
the awarded score delta and the new combo heat. -/
def onEnemyKilled (comboHeat maxHp : ℚ) : ℤ × ℚ :=
  let baseScore : ℚ := 100 + maxHp * 15
  let tier : ℤ := ⌊comboHeat / 5⌋
  let multiplier : ℚ := 1 + (tier : ℚ) * (1 / 10)
  let delta := jsRound (baseScore * multiplier)
  (delta, comboHeat + 1)

/-! ## Per-wave difficulty scaling (`src/game/waves/enemyModifiers.ts`) -/

/-- `EnemyWaveScaling` from `src/game/types.ts`. -/
structure EnemyWaveScaling where
  level : ℕ
  hpMultiplier : ℚ
  hpBonus : ℚ
  speedMultiplier : ℚ
  countMultiplier : ℚ
  cadenceMultiplier : ℚ
  deriving DecidableEq, Repr

/-- The six entries of `ENEMY_MODIFIERS` in
`src/game/waves/enemyModifiers.ts`. -/
inductive EnemyMutation where
  | overclocked
  | reinforcedCarapace
  | broodSwarm
  | rapidIncubation
  | feralSurge
  | ironcladHosts
  deriving DecidableEq, Repr

/-- The `apply` mutation of each catalog entry of `ENEMY_MODIFIERS`. -/
def applyMutation (m : EnemyMutation) (s : EnemyWaveScaling) : EnemyWaveScaling :=
  match m with
  | .overclocked => { s with speedMultiplier := s.speedMultiplier * (5 / 4) }
  | .reinforcedCarapace =>
      { s with hpMultiplier := s.hpMultiplier * (13 / 10), hpBonus := s.hpBonus + 1 }
  | .broodSwarm =>
      { s with countMultiplier := s.countMultiplier * (29 / 20),
               cadenceMultiplier := s.cadenceMultiplier * (9 / 10) }
  | .rapidIncubation =>
      { s with cadenceMultiplier := s.cadenceMultiplier * (7 / 10),
               speedMultiplier := s.speedMultiplier * (28 / 25) }
  | .feralSurge =>
      { s with hpMultiplier := s.hpMultiplier * (23 / 20),
               speedMultiplier := s.speedMultiplier * (6 / 5) }
  | .ironcladHosts =>
      { s with hpBonus := s.hpBonus + 2, countMultiplier := s.countMultiplier * (23 / 20) }

/-- `buildEnemyTuning` (`src/game/waves/enemyModifiers.ts`, lines
592–628), with the random without-replacement draw of mutation picks
abstracted into the argument `picks`: the source draws
`floor(level / 5)` entries (reshuffling the pool when exhausted), and
every such draw is some list of catalog entries, so quantifying over all
lists covers every possible random draw.  Base scaling is linear in
`level = max 0 (waveNumber - 1)` (ℕ subtraction), each pick's `apply`
runs in order, and every field is clamped at the end. -/
def buildEnemyTuning (waveNumber : ℕ) (picks : List EnemyMutation) : EnemyWaveScaling :=
  let level := waveNumber - 1
  let s : EnemyWaveScaling :=
    { level := level
      hpMultiplier := 1 + (level : ℚ) * (7 / 100)
      hpBonus := 0
      speedMultiplier := 1 + (level : ℚ) * (6 / 1000)
      countMultiplier := 1 + (level : ℚ) * (5 / 100)
      cadenceMultiplier := 1 / (1 + (level : ℚ) * (25 / 1000)) }
  let s := picks.foldl (fun acc m => applyMutation m acc) s
  { s with
    hpMultiplier := clamp s.hpMultiplier 1 5
    speedMultiplier := clamp s.speedMultiplier (1 / 2) 3
    countMultiplier := clamp s.countMultiplier 1 (7 / 2)
    cadenceMultiplier := clamp s.cadenceMultiplier (7 / 20) 1
    hpBonus := max 0 s.hpBonus }

/-! ## Spawn-time hp derivation (`Game.spawnEnemy`, Game.ts 757–764) -/

/-- The `baseHp` local of `Game.spawnEnemy` (Game.ts 757–761):
`scaledHpValue = params.hp * hpMultiplier + hpBonus`;
`minimumHp = params.hp + floor(level / 3)`;
`baseHp = max(1, max(round(scaledHpValue), minimumHp))`. -/
def spawnEnemyBaseHp (scaling : EnemyWaveScaling) (paramsHp : ℚ) : ℚ :=
  let scaledHpValue := paramsHp * scaling.hpMultiplier + scaling.hpBonus
  let minimumHp := paramsHp + ((scaling.level / 3 : ℕ) : ℚ)
  max 1 (max ((jsRound scaledHpValue : ℤ) : ℚ) minimumHp)

/-- The final hp of `Game.spawnEnemy` (Game.ts 762):
`hp = max(1, round(baseHp * enemyHpMultiplier))`. -/
def spawnEnemyHp (scaling : EnemyWaveScaling) (enemyHpMultiplier paramsHp : ℚ) : ℚ :=
  max 1 ((jsRound (spawnEnemyBaseHp scaling paramsHp * enemyHpMultiplier) : ℤ) : ℚ)

end Slingpunk

namespace Slingpunk

/-- `Math.round` of an integer is that integer. -/
theorem jsRound_intCast (n : ℤ) : jsRound (n : ℚ) = n := by
  rw [jsRound, Int.floor_int_add]
  norm_num

/-- `Math.round` is monotone. -/
theorem jsRound_mono {a b : ℚ} (h : a ≤ b) : jsRound a ≤ jsRound b :=
  Int.floor_mono (by linarith)

/-- `clamp` lands in its band whenever the band is nonempty. -/
theorem clamp_mem {v lo hi : ℚ} (h : lo ≤ hi) :
    lo ≤ clamp v lo hi ∧ clamp v lo hi ≤ hi :=
  ⟨le_max_left lo _, max_le h (min_le_left hi v)⟩

/-- Claim C2: for every adversary with `shield > 0` and every damage
amount, `takeDamage` reduces shield before hp: if the amount is at most
the shield, hp is unchanged (and the shield drops by exactly the
amount); if the amount exceeds the shield, the shield becomes `0` and
exactly the overflow `amount - shield` is subtracted from hp in the same
call. -/
theorem takeDamage_shield_before_hp (e : Enemy) (amount : ℚ)
    (halive : e.alive = true) (hshield : 0 < e.shield) :
    (amount ≤ e.shield →
      (takeDamage amount e).hp = e.hp ∧
      (takeDamage amount e).shield = e.shield - amount) ∧
    (e.shield < amount →
      (takeDamage amount e).shield = 0 ∧
      (takeDamage amount e).hp = e.hp - (amount - e.shield)) := by
  constructor
  · intro hle
    have key : takeDamage amount e = { e with shield := e.shield - amount } := by
      rcases lt_or_eq_of_le hle with hlt | heq
      · have hpos : ¬ e.shield - amount ≤ 0 := by linarith
        simp [takeDamage, halive, hshield, hpos]
      · have hz : e.shield - amount ≤ 0 := by rw [heq]; simp
        have hnover : ¬ e.shield < amount := not_lt.mpr hle
        simp [takeDamage, halive, hshield, hz, hnover]
        linarith
    rw [key]
    exact ⟨rfl, rfl⟩
  · intro hgt
    have hz : e.shield - amount ≤ 0 := by linarith
    have hover : e.shield < amount := hgt
    by_cases hdead : e.hp - (amount - e.shield) ≤ 0
    · have key : takeDamage amount e =
        { e with shield := 0, hp := e.hp - (amount - e.shield), alive := false } := by
        simp [takeDamage, halive, hshield, hz, hover, neg_sub, hdead]
      rw [key]
      exact ⟨rfl, rfl⟩
    · have key : takeDamage amount e =
        { e with shield := 0, hp := e.hp - (amount - e.shield) } := by
        simp [takeDamage, halive, hshield, hz, hover, neg_sub, hdead]
      rw [key]
      exact ⟨rfl, rfl⟩

/-- Witness for C2: a live adversary with shield 3 hit for 5 loses the
shield and exactly 2 hp. -/
theorem takeDamage_shield_before_hp_witness :
    (takeDamage 5
      { hp := 10, maxHp := 10, shield := 3, alive := true, isBoss := false,
        isElite := false, slowTimer := 0, slowFactor := 1, knockback := 0 }).shield = 0 ∧
    (takeDamage 5
      { hp := 10, maxHp := 10, shield := 3, alive := true, isBoss := false,
        isElite := false, slowTimer := 0, slowFactor := 1, knockback := 0 }).hp = 10 - (5 - 3) := by
  have h := takeDamage_shield_before_hp
    { hp := 10, maxHp := 10, shield := 3, alive := true, isBoss := false,
      isElite := false, slowTimer := 0, slowFactor := 1, knockback := 0 }
    5 rfl (by norm_num)
  exact h.2 (by norm_num)

/-- Counterexample to C7 as stated: `applySlow` composes with the
adversary's current slow state, so on an adversary that already has a
2-second slow running, `applySlow(1, 0.6)` then `applySlow(0.5, 0.8)`
leaves the duration at `2`, not `max(1, 0.5) = 1`. -/
theorem applySlow_not_max_of_args_only :
    (applySlow (1 / 2) (4 / 5) (applySlow 1 (3 / 5)
      { hp := 3, maxHp := 3, shield := 0, alive := true, isBoss := false,
        isElite := false, slowTimer := 2, slowFactor := 1, knockback := 0 })).slowTimer
      ≠ max 1 (1 / 2) := by
  norm_num [applySlow]

/-- Claim C7 (amended): starting from an adversary with no active slow
(`slowTimer = 0`, `slowFactor = 1`), for durations `≥ 0` and factors in
the clamp band `[0.1, 1]`, applying `applySlow d₁ f₁` then
`applySlow d₂ f₂` yields duration `max d₁ d₂` and factor `min f₁ f₂`;
for any adversary whatsoever the two calls commute; and `applyKnockback`
keeps the maximum of the current and incoming force. -/
theorem applySlow_max_wins (e : Enemy) (d₁ d₂ f₁ f₂ : ℚ)
    (ht : e.slowTimer = 0) (hf : e.slowFactor = 1)
    (hd₁ : 0 ≤ d₁) (hd₂ : 0 ≤ d₂)
    (hf₁l : 1 / 10 ≤ f₁) (hf₁u : f₁ ≤ 1)
    (hf₂l : 1 / 10 ≤ f₂) (hf₂u : f₂ ≤ 1) :
    ((applySlow d₂ f₂ (applySlow d₁ f₁ e)).slowTimer = max d₁ d₂ ∧
     (applySlow d₂ f₂ (applySlow d₁ f₁ e)).slowFactor = min f₁ f₂) ∧
    (∀ e' : Enemy,
      applySlow d₂ f₂ (applySlow d₁ f₁ e') = applySlow d₁ f₁ (applySlow d₂ f₂ e')) ∧
    (∀ (e' : Enemy) (force : ℚ),
      (applyKnockback force e').knockback = max e'.knockback force) := by
  refine ⟨⟨?_, ?_⟩, ?_, ?_⟩
  · simp [applySlow, ht, max_eq_right hd₁]
  · have hf₁l' : (10 : ℚ)⁻¹ ≤ f₁ := by rw [← one_div]; exact hf₁l
    have hf₂l' : (10 : ℚ)⁻¹ ≤ f₂ := by rw [← one_div]; exact hf₂l
    simp [applySlow, hf, max_eq_right hf₁l', max_eq_right hf₂l', min_eq_right hf₁u]
  · intro e'
    simp only [applySlow, Enemy.mk.injEq, and_true, true_and]
    constructor
    · rw [max_assoc, max_comm d₁ d₂, ← max_assoc]
    · rw [min_assoc, min_comm (max (1 / 10) f₁) (max (1 / 10) f₂), ← min_assoc]
  · intro e' force
    rfl

/-- Witness for C7 (amended): from a fresh adversary, the spec's own
instance `applySlow(1, 0.6)` then `applySlow(0.5, 0.8)` yields duration
`1` and factor `0.6`. -/
theorem applySlow_max_wins_witness :
    (applySlow (1 / 2) (4 / 5) (applySlow 1 (3 / 5)
      { hp := 3, maxHp := 3, shield := 0, alive := true, isBoss := false,
        isElite := false, slowTimer := 0, slowFactor := 1, knockback := 0 })).slowTimer = 1 ∧
    (applySlow (1 / 2) (4 / 5) (applySlow 1 (3 / 5)
      { hp := 3, maxHp := 3, shield := 0, alive := true, isBoss := false,
        isElite := false, slowTimer := 0, slowFactor := 1, knockback := 0 })).slowFactor = 3 / 5 := by
  have h := applySlow_max_wins
    { hp := 3, maxHp := 3, shield := 0, alive := true, isBoss := false,
      isElite := false, slowTimer := 0, slowFactor := 1, knockback := 0 }
    1 (1 / 2) (3 / 5) (4 / 5) rfl rfl (by norm_num) (by norm_num)
    (by norm_num) (by norm_num) (by norm_num) (by norm_num)
  refine ⟨?_, ?_⟩
  · rw [h.1.1]; norm_num
  · rw [h.1.2]; norm_num

/-- Claim C9: requesting a new modifier draft while one is already in
progress (`drafting == true`) is a no-op: the call returns with the
state unchanged and reports that no draft was started. -/
theorem beginModifierDraft_reentry_noop (s : DraftState) (h : s.drafting = true) :
    beginModifierDraft s = (s, false) := by
  simp [beginModifierDraft, h]

/-- Witness for C9: a concrete drafting state is left untouched. -/
theorem beginModifierDraft_reentry_noop_witness :
    beginModifierDraft { drafting := true, pauseLocked := true, paused := true, lives := 3 }
      = ({ drafting := true, pauseLocked := true, paused := true, lives := 3 }, false) :=
  beginModifierDraft_reentry_noop
    { drafting := true, pauseLocked := true, paused := true, lives := 3 } rfl

/-- Counterexample to C3 as stated: within one tick of `Game.update`,
the wave-completion/draft-trigger check (inside `waveManager.update`)
runs at the start of the tick — before advancement, collisions and
filtering — not after the dead-entity filtering. -/
theorem update_wave_check_before_filtering :
    phaseIndex TickPhase.waveUpdate < phaseIndex TickPhase.filterOrbs ∧
    phaseIndex TickPhase.waveUpdate < phaseIndex TickPhase.filterEnemies ∧
    ¬ (phaseIndex TickPhase.filterOrbs < phaseIndex TickPhase.waveUpdate) ∧
    ¬ (phaseIndex TickPhase.filterEnemies < phaseIndex TickPhase.waveUpdate) := by
  decide

/-- Claim C3 (amended): within one simulated tick, projectile and
adversary advancement happens before collision resolution, and
collision resolution happens before filtering dead entities out of the
live collections; the wave-completion/draft-trigger check runs once at
the start of the tick, before advancement, so it observes the
collections exactly as the previous tick's filtering left them.  Each
statement group occurs exactly once per tick. -/
theorem update_phase_order :
    phaseIndex TickPhase.orbAdvance < phaseIndex TickPhase.collisions ∧
    phaseIndex TickPhase.enemyAdvance < phaseIndex TickPhase.collisions ∧
    phaseIndex TickPhase.collisions < phaseIndex TickPhase.filterOrbs ∧
    phaseIndex TickPhase.filterOrbs < phaseIndex TickPhase.filterEnemies ∧
    phaseIndex TickPhase.waveUpdate < phaseIndex TickPhase.orbAdvance ∧
    gameUpdatePhases.Nodup := by
  decide

/-- Loading a wave never changes the wave index. -/
theorem wmLoaded_waveIndex (load : ℕ → List ActiveSpawn) (s : WMState) :
    (wmLoaded load s).waveIndex = s.waveIndex := by
  rw [wmLoaded]
  split <;> rfl

/-- One `WaveManager.update` call never decreases the wave index. -/
theorem wmUpdate_waveIndex_mono (load : ℕ → List ActiveSpawn)
    (en : ℕ) (dt : ℚ) (s : WMState) :
    s.waveIndex ≤ (wmUpdate load en dt s).1.waveIndex := by
  have h := wmLoaded_waveIndex load s
  simp only [wmUpdate]
  split
  · simp [h]
  · simp [h]

/-- Every event of one `WaveManager.update` call is tagged with the
entry state's wave index. -/
theorem wmUpdate_event_wave (load : ℕ → List ActiveSpawn)
    (en : ℕ) (dt : ℚ) (s : WMState) :
    ∀ e ∈ (wmUpdate load en dt s).2, e.wave = s.waveIndex := by
  intro e he
  have h := wmLoaded_waveIndex load s
  simp only [wmUpdate] at he
  split at he
  · simp only [List.mem_append, List.mem_replicate, List.mem_singleton] at he
    rcases he with ⟨_, rfl⟩ | rfl
    · simp [WaveEvent.wave, h]
    · simp [WaveEvent.wave, h]
  · simp only [List.mem_replicate] at he
    rcases he with ⟨_, rfl⟩
    simp [WaveEvent.wave, h]

/-- A completion event in one `WaveManager.update` call pins down the
call: the completed wave is the entry wave index, the wave index is
advanced, no adversary was alive, and every (stepped) spawn group had
spawned its full count. -/
theorem wmUpdate_complete_mem (load : ℕ → List ActiveSpawn)
    (en : ℕ) (dt : ℚ) (s : WMState) (w : ℕ)
    (hmem : WaveEvent.complete w ∈ (wmUpdate load en dt s).2) :
    w = s.waveIndex ∧
    (wmUpdate load en dt s).1.waveIndex = s.waveIndex + 1 ∧
    en = 0 ∧
    ((wmLoaded load s).spawns.map
      (stepGroup ((wmLoaded load s).elapsed + dt))).all groupDone = true := by
  have h := wmLoaded_waveIndex load s
  simp only [wmUpdate] at hmem ⊢
  split at hmem
  case isTrue hc =>
    simp only [List.mem_append, List.mem_replicate, List.mem_singleton] at hmem
    have hw : w = s.waveIndex := by
      rcases hmem with ⟨_, habs⟩ | heq
      · exact absurd habs (by simp)
      · rw [← h]
        exact (WaveEvent.complete.injEq _ _ ▸ heq : w = (wmLoaded load s).waveIndex)
    refine ⟨hw, ?_, ?_, hc.1⟩
    · rw [if_pos hc]
      simp [h]
    · omega
  case isFalse hc =>
    simp only [List.mem_replicate] at hmem
    exact absurd hmem.2 (by simp)

/-- A reflexive element yields a pairwise-replicated list. -/
theorem pairwise_replicate_of_rel {α : Type} {R : α → α → Prop} (a : α)
    (h : R a a) : ∀ n, List.Pairwise R (List.replicate n a) := by
  intro n
  induction n with
  | zero => simp
  | succ m ih =>
    rw [List.replicate_succ]
    refine List.Pairwise.cons ?_ ih
    intro b hb
    rw [List.eq_of_mem_replicate hb]
    exact h

/-- A spawn event never blocks later events. -/
theorem eventOrder_spawn (i : ℕ) (e : WaveEvent) : EventOrder (WaveEvent.spawn i) e :=
  fun _ h => nomatch h

/-- The events of one `WaveManager.update` call are internally ordered:
the completion event, when present, comes last. -/
theorem wmUpdate_pairwise (load : ℕ → List ActiveSpawn)
    (en : ℕ) (dt : ℚ) (s : WMState) :
    List.Pairwise EventOrder (wmUpdate load en dt s).2 := by
  simp only [wmUpdate]
  split
  · refine List.pairwise_append.mpr ⟨?_, ?_, ?_⟩
    · exact pairwise_replicate_of_rel _ (eventOrder_spawn _ _) _
    · simp
    · intro e1 he1 e2 he2
      rw [List.eq_of_mem_replicate he1]
      exact eventOrder_spawn _ _
  · exact pairwise_replicate_of_rel _ (eventOrder_spawn _ _) _

/-- Every event of a run is tagged with a wave index at least the
starting wave index. -/
theorem wmRun_event_wave_lb (load : ℕ → List ActiveSpawn) :
    ∀ (inputs : List (ℕ × ℚ)) (s : WMState),
      ∀ e ∈ (wmRun load inputs s).2, s.waveIndex ≤ e.wave := by
  intro inputs
  induction inputs with
  | nil =>
    intro s e he
    simp [wmRun] at he
  | cons i rest ih =>
    intro s e he
    obtain ⟨en, dt⟩ := i
    simp only [wmRun, List.mem_append] at he
    rcases he with he | he
    · exact le_of_eq (wmUpdate_event_wave load en dt s e he).symm
    · exact le_trans (wmUpdate_waveIndex_mono load en dt s) (ih _ e he)

/-- Across any run, once a wave completes every later event belongs to
a strictly later wave. -/
theorem wmRun_pairwise (load : ℕ → List ActiveSpawn)
    (inputs : List (ℕ × ℚ)) (s : WMState) :
    List.Pairwise EventOrder (wmRun load inputs s).2 := by
  induction inputs generalizing s with
  | nil => simp [wmRun]
  | cons i rest ih =>
    obtain ⟨en, dt⟩ := i
    simp only [wmRun]
    refine List.pairwise_append.mpr ⟨wmUpdate_pairwise load en dt s, ih _, ?_⟩
    intro e1 he1 e2 he2 w hw
    have hc := wmUpdate_complete_mem load en dt s w (hw ▸ he1)
    have hlb := wmRun_event_wave_lb load rest _ e2 he2
    omega

/-- Claim C6: `WaveManager.update` reports a wave complete only in a
tick where every spawn group has spawned its full count and zero
adversaries remain alive; and across any run, each wave index is
reported complete at most once — any event after a wave's completion
(spawn or completion) belongs to a strictly later wave, so no member of
a completed wave's groups is ever spawned again.  Completion is
therefore exactly once per wave that completes at all. -/
theorem waveComplete_exactly_once (load : ℕ → List ActiveSpawn) :
    (∀ (enemiesAlive : ℕ) (dt : ℚ) (s : WMState) (w : ℕ),
      WaveEvent.complete w ∈ (wmUpdate load enemiesAlive dt s).2 →
        w = s.waveIndex ∧ enemiesAlive = 0 ∧
        ((wmLoaded load s).spawns.map
          (stepGroup ((wmLoaded load s).elapsed + dt))).all groupDone = true) ∧
    (∀ (inputs : List (ℕ × ℚ)) (s0 : WMState),
      List.Pairwise EventOrder (wmRun load inputs s0).2) := by
  constructor
  · intro en dt s w hmem
    obtain ⟨h1, _h2, h3, h4⟩ := wmUpdate_complete_mem load en dt s w hmem
    exact ⟨h1, h3, h4⟩
  · intro inputs s0
    exact wmRun_pairwise load inputs s0

/-- Witness for C6: a single wave with one spawned-out group and no
live adversaries completes, and the completion guard facts hold at that
concrete input. -/
theorem waveComplete_exactly_once_witness :
    ((0 : ℕ) = (⟨[⟨1, 1, 1, 0⟩], 0, 0⟩ : WMState).waveIndex ∧ (0 : ℕ) = 0 ∧
      ((wmLoaded (fun _ => []) ⟨[⟨1, 1, 1, 0⟩], 0, 0⟩).spawns.map
        (stepGroup ((wmLoaded (fun _ => []) ⟨[⟨1, 1, 1, 0⟩], 0, 0⟩).elapsed + 1))).all
        groupDone = true) ∧
    List.Pairwise EventOrder (wmRun (fun _ => []) [(0, 1)] ⟨[⟨1, 1, 1, 0⟩], 0, 0⟩).2 := by
  have h := waveComplete_exactly_once (fun _ => [])
  refine ⟨h.1 0 1 ⟨[⟨1, 1, 1, 0⟩], 0, 0⟩ 0 ?_, h.2 [(0, 1)] ⟨[⟨1, 1, 1, 0⟩], 0, 0⟩⟩
  have heval : (wmUpdate (fun _ => ([] : List ActiveSpawn)) 0 1
      ⟨[⟨1, 1, 1, 0⟩], 0, 0⟩).2 = [WaveEvent.complete 0] := rfl
  rw [heval]
  simp

/-- Claim C8: for every kill, the awarded score equals
`round((100 + 15 * maxHp) * (1 + 0.1 * tier))` with
`tier = floor(comboHeat / 5)` taken from the combo heat before the
kill's own `+1` increment (the returned heat is `comboHeat + 1`); in
particular a kill with `maxHp = 5` at `comboHeat = 12` awards exactly
`210` points. -/
theorem onEnemyKilled_score_formula :
    (∀ comboHeat maxHp : ℚ,
      (onEnemyKilled comboHeat maxHp).1 =
        jsRound ((100 + 15 * maxHp) * (1 + ((⌊comboHeat / 5⌋ : ℤ) : ℚ) / 10)) ∧
      (onEnemyKilled comboHeat maxHp).2 = comboHeat + 1) ∧
    (onEnemyKilled 12 5).1 = 210 := by
  constructor
  · intro comboHeat maxHp
    constructor
    · show jsRound ((100 + maxHp * 15) * (1 + ((⌊comboHeat / 5⌋ : ℤ) : ℚ) * (1 / 10))) = _
      congr 1
      ring
    · rfl
  · show jsRound ((100 + (5 : ℚ) * 15) * (1 + ((⌊(12 : ℚ) / 5⌋ : ℤ) : ℚ) * (1 / 10))) = 210
    have h5 : ⌊(12 : ℚ) / 5⌋ = 2 := by norm_num
    rw [h5, jsRound]
    norm_num

/-- Claim C5: for every wave number from 1 to 200 and every possible
draw of mutations, the scaling built by `buildEnemyTuning` satisfies
`hpMultiplier ∈ [1,5]`, `speedMultiplier ∈ [0.5,3]`,
`countMultiplier ∈ [1,3.5]`, `cadenceMultiplier ∈ [0.35,1]` and
`hpBonus ≥ 0`. -/
theorem buildEnemyTuning_clamps (waveNumber : ℕ) (picks : List EnemyMutation)
    (hlo : 1 ≤ waveNumber) (hhi : waveNumber ≤ 200) :
    (1 ≤ (buildEnemyTuning waveNumber picks).hpMultiplier ∧
      (buildEnemyTuning waveNumber picks).hpMultiplier ≤ 5) ∧
    (1 / 2 ≤ (buildEnemyTuning waveNumber picks).speedMultiplier ∧
      (buildEnemyTuning waveNumber picks).speedMultiplier ≤ 3) ∧
    (1 ≤ (buildEnemyTuning waveNumber picks).countMultiplier ∧
      (buildEnemyTuning waveNumber picks).countMultiplier ≤ 7 / 2) ∧
    (7 / 20 ≤ (buildEnemyTuning waveNumber picks).cadenceMultiplier ∧
      (buildEnemyTuning waveNumber picks).cadenceMultiplier ≤ 1) ∧
    0 ≤ (buildEnemyTuning waveNumber picks).hpBonus := by
  refine ⟨?_, ?_, ?_, ?_, ?_⟩
  · exact clamp_mem (by norm_num)
  · exact clamp_mem (by norm_num)
  · exact clamp_mem (by norm_num)
  · exact clamp_mem (by norm_num)
  · exact le_max_left 0 _

/-- Witness for C5: the bounds hold concretely at wave 1 with no
mutations drawn. -/
theorem buildEnemyTuning_clamps_witness :
    (1 ≤ (buildEnemyTuning 1 []).hpMultiplier ∧
      (buildEnemyTuning 1 []).hpMultiplier ≤ 5) ∧
    (1 / 2 ≤ (buildEnemyTuning 1 []).speedMultiplier ∧
      (buildEnemyTuning 1 []).speedMultiplier ≤ 3) ∧
    (1 ≤ (buildEnemyTuning 1 []).countMultiplier ∧
      (buildEnemyTuning 1 []).countMultiplier ≤ 7 / 2) ∧
    (7 / 20 ≤ (buildEnemyTuning 1 []).cadenceMultiplier ∧
      (buildEnemyTuning 1 []).cadenceMultiplier ≤ 1) ∧
    0 ≤ (buildEnemyTuning 1 []).hpBonus :=
  buildEnemyTuning_clamps 1 [] (le_refl 1) (by norm_num)

/-- Counterexample to C10 as stated: the floor guarantee does not
survive the difficulty multiplier.  With base hp `3`, level `6`
(so `minimumHp = 3 + 2 = 5`) and the Rookie difficulty's
`enemyHpMultiplier = 0.75`, the spawned hp is
`max(1, round(5 * 0.75)) = 4 < 5`. -/
theorem spawnEnemyHp_floor_counterexample :
    spawnEnemyHp
      { level := 6, hpMultiplier := 1, hpBonus := 0, speedMultiplier := 1,
        countMultiplier := 1, cadenceMultiplier := 1 } (3 / 4) 3 = 4 ∧
    (4 : ℚ) < 3 + (((6 : ℕ) / 3 : ℕ) : ℚ) := by
  constructor
  · have hbase : spawnEnemyBaseHp
        { level := 6, hpMultiplier := 1, hpBonus := 0, speedMultiplier := 1,
          countMultiplier := 1, cadenceMultiplier := 1 } 3 = 5 := by
      simp only [spawnEnemyBaseHp]
      norm_num [jsRound, max_def]
    rw [spawnEnemyHp, hbase]
    norm_num [jsRound, max_def]
  · norm_num

/-- Claim C10 (amended): every spawned adversary's final hp is at least
`1`; the intermediate `baseHp` (before the difficulty multiplier) always
respects the floor guarantee `params.hp + floor(level / 3)`; and the
final hp respects the floor guarantee too provided the base hp is an
integer and `enemyHpMultiplier ≥ 1` — the difficulty multiplier is
applied after the floor, so a sub-1 multiplier (Rookie's `0.75`) can
push the final hp below the guarantee, though never below `1`. -/
theorem spawnEnemyHp_floor (scaling : EnemyWaveScaling) (ehm paramsHp : ℚ) :
    1 ≤ spawnEnemyHp scaling ehm paramsHp ∧
    paramsHp + ((scaling.level / 3 : ℕ) : ℚ) ≤ spawnEnemyBaseHp scaling paramsHp ∧
    ((∃ k : ℤ, paramsHp = (k : ℚ)) → 1 ≤ ehm →
      paramsHp + ((scaling.level / 3 : ℕ) : ℚ) ≤ spawnEnemyHp scaling ehm paramsHp) := by
  refine ⟨le_max_left 1 _, ?_, ?_⟩
  · exact le_trans (le_max_right _ _) (le_max_right 1 _)
  · rintro ⟨k, rfl⟩ hehm
    set c : ℤ := ((scaling.level / 3 : ℕ) : ℤ) with hc
    set r : ℤ := jsRound ((k : ℚ) * scaling.hpMultiplier + scaling.hpBonus)
    have hbase : spawnEnemyBaseHp scaling (k : ℚ) = ((max 1 (max r (k + c)) : ℤ) : ℚ) := by
      rw [spawnEnemyBaseHp]
      push_cast
      rfl
    set B : ℤ := max 1 (max r (k + c))
    have hB1 : (1 : ℤ) ≤ B := le_max_left 1 _
    have hB1q : (1 : ℚ) ≤ (B : ℚ) := by exact_mod_cast hB1
    have hmul : (B : ℚ) ≤ (B : ℚ) * ehm := by nlinarith
    have hround : B ≤ jsRound ((B : ℚ) * ehm) := by
      calc B = jsRound ((B : ℚ)) := (jsRound_intCast B).symm
        _ ≤ jsRound ((B : ℚ) * ehm) := jsRound_mono hmul
    have hfloor : (k : ℚ) + ((scaling.level / 3 : ℕ) : ℚ) ≤ ((B : ℤ) : ℚ) := by
      rw [← hbase]
      exact le_trans (le_max_right _ _) (le_max_right 1 _)
    have hcast : ((B : ℤ) : ℚ) ≤ ((jsRound ((B : ℚ) * ehm) : ℤ) : ℚ) :=
      Int.cast_le.mpr hround
    rw [spawnEnemyHp, hbase]
    exact le_trans (le_trans hfloor hcast) (le_max_right 1 _)

/-- With a nonnegative combo heat and percent, the combo-heat stage is
exactly the factor `1 + comboHeat * comboHeatDamagePercent`. -/
theorem applyComboHeatBonus_eq (g : GameCtx) (d : ℚ)
    (hheat : 0 ≤ g.comboHeat) (hchp : 0 ≤ g.modifiers.comboHeatDamagePercent) :
    applyComboHeatBonus g d = d * (1 + g.comboHeat * g.modifiers.comboHeatDamagePercent) := by
  rw [applyComboHeatBonus]
  by_cases h : 0 < g.modifiers.comboHeatDamagePercent
  · rw [if_pos h, max_eq_right hheat]
  · rw [if_neg h]
    have h0 : g.modifiers.comboHeatDamagePercent = 0 := le_antisymm (not_lt.mp h) hchp
    rw [h0]
    ring

/-- With a nonnegative percent, the bounce stage is exactly the factor
`1 + bounceCount * bounceDamagePercent`. -/
theorem applyBounceBonus_eq (g : GameCtx) (orb : Orb) (d : ℚ)
    (hbdp : 0 ≤ g.modifiers.bounceDamagePercent) :
    applyBounceBonus g orb d = d * (1 + (orb.bounceCount : ℚ) * g.modifiers.bounceDamagePercent) := by
  rw [applyBounceBonus]
  by_cases h : 0 < g.modifiers.bounceDamagePercent ∧ 0 < orb.bounceCount
  · rw [if_pos h]
  · rw [if_neg h]
    by_cases hb : 0 < g.modifiers.bounceDamagePercent
    · have hc : orb.bounceCount = 0 := by
        by_contra hc
        exact h ⟨hb, Nat.pos_of_ne_zero hc⟩
      rw [hc]
      push_cast
      ring
    · have h0 : g.modifiers.bounceDamagePercent = 0 := le_antisymm (not_lt.mp hb) hbdp
      rw [h0]
      ring

/-- With a boss multiplier at least `1`, the boss stage is exactly the
factor `bossDamageMultiplier` on boss/elite targets and `1` otherwise. -/
theorem applyBossBonus_eq (g : GameCtx) (enemy : Enemy) (d : ℚ)
    (hboss : 1 ≤ g.modifiers.bossDamageMultiplier) :
    applyBossBonus g enemy d =
      d * (if isBossOrElite enemy = true then g.modifiers.bossDamageMultiplier else 1) := by
  rw [applyBossBonus]
  by_cases h : isBossOrElite enemy = true ∧ 1 < g.modifiers.bossDamageMultiplier
  · rw [if_pos h, if_pos h.1]
  · rw [if_neg h]
    by_cases hb : isBossOrElite enemy = true
    · have hnlt : ¬ 1 < g.modifiers.bossDamageMultiplier := fun hlt => h ⟨hb, hlt⟩
      have h1 : g.modifiers.bossDamageMultiplier = 1 := le_antisymm (not_lt.mp hnlt) hboss
      rw [if_pos hb, h1]
      ring
    · rw [if_neg hb]
      ring

/-- Setting a structure field to the value it already holds is the
identity. -/
theorem orb_update_pwb_self (orb : Orb) (h : orb.pendingWallDamageBonus = 0) :
    { orb with pendingWallDamageBonus := 0 } = orb := by
  cases orb
  simp_all

/-- With a nonnegative pending bonus, the wall stage is exactly the
factor `1 + pendingWallDamageBonus`, and the bonus is always zero
afterwards. -/
theorem applyWallBonus_eq (orb : Orb) (d : ℚ) (hpwb : 0 ≤ orb.pendingWallDamageBonus) :
    applyWallBonus orb d =
      (d * (1 + orb.pendingWallDamageBonus), { orb with pendingWallDamageBonus := 0 }) := by
  rw [applyWallBonus]
  by_cases h : 0 < orb.pendingWallDamageBonus
  · rw [if_pos h]
  · rw [if_neg h]
    have h0 : orb.pendingWallDamageBonus = 0 := le_antisymm (not_lt.mp h) hpwb
    rw [orb_update_pwb_self orb h0, h0]
    norm_num

/-- In any run state reachable by the draft engine (heat and percents
nonnegative, boss multiplier at least `1`), `computeOrbDamage` equals
the specification's closed formula, with the wall bonus consumed. -/
theorem computeOrbDamage_eq (g : GameCtx) (orb : Orb) (enemy : Enemy)
    (hheat : 0 ≤ g.comboHeat)
    (hchp : 0 ≤ g.modifiers.comboHeatDamagePercent)
    (hbdp : 0 ≤ g.modifiers.bounceDamagePercent)
    (hboss : 1 ≤ g.modifiers.bossDamageMultiplier)
    (hpwb : 0 ≤ orb.pendingWallDamageBonus) :
    computeOrbDamage g orb enemy =
      ((orb.damage * g.modifiers.damageMultiplier
          * (1 + g.comboHeat * g.modifiers.comboHeatDamagePercent)
          * (1 + (orb.bounceCount : ℚ) * g.modifiers.bounceDamagePercent)
          * (if isBossOrElite enemy = true then g.modifiers.bossDamageMultiplier else 1)
          * (1 + orb.pendingWallDamageBonus)
          + ((⌊g.comboHeat / 5⌋ : ℤ) : ℚ) * g.modifiers.comboDamagePerTier)
          * g.playerDamageMultiplier,
        { orb with pendingWallDamageBonus := 0 }) := by
  simp only [computeOrbDamage,
    applyComboHeatBonus_eq g _ hheat hchp,
    applyBounceBonus_eq g orb _ hbdp,
    applyBossBonus_eq g enemy _ hboss,
    applyWallBonus_eq orb _ hpwb,
    scalePlayerDamage, Prod.mk.injEq]

/-- Claim C1: for every projectile–adversary collision resolved by
`resolveOrbHit`, the damage applied to the adversary (the amount passed
to `takeDamage`, which fully determines the resulting hp and shield)
equals base damage times `damageMultiplier`, times
`1 + comboHeat * comboHeatDamagePercent`, times
`1 + bounceCount * bounceDamagePercent`, times `bossDamageMultiplier`
when the target is elite or boss, times
`1 + pendingWallDamageBonus` with that bonus consumed (set to `0`) by
the hit, plus `comboTier * comboDamagePerTier`, the whole result then
multiplied by the run's `playerDamageMultiplier`. -/
theorem resolveOrbHit_damage_formula (g : GameCtx) (orb : Orb) (enemy : Enemy)
    (hheat : 0 ≤ g.comboHeat)
    (hchp : 0 ≤ g.modifiers.comboHeatDamagePercent)
    (hbdp : 0 ≤ g.modifiers.bounceDamagePercent)
    (hboss : 1 ≤ g.modifiers.bossDamageMultiplier)
    (hpwb : 0 ≤ orb.pendingWallDamageBonus) :
    (resolveOrbHit g orb enemy).damage =
      (orb.damage * g.modifiers.damageMultiplier
        * (1 + g.comboHeat * g.modifiers.comboHeatDamagePercent)
        * (1 + (orb.bounceCount : ℚ) * g.modifiers.bounceDamagePercent)
        * (if isBossOrElite enemy = true then g.modifiers.bossDamageMultiplier else 1)
        * (1 + orb.pendingWallDamageBonus)
        + ((⌊g.comboHeat / 5⌋ : ℤ) : ℚ) * g.modifiers.comboDamagePerTier)
        * g.playerDamageMultiplier ∧
    (resolveOrbHit g orb enemy).orb.pendingWallDamageBonus = 0 ∧
    (resolveOrbHit g orb enemy).enemy.hp =
      (takeDamage (resolveOrbHit g orb enemy).damage enemy).hp ∧
    (resolveOrbHit g orb enemy).enemy.shield =
      (takeDamage (resolveOrbHit g orb enemy).damage enemy).shield := by
  have hcd := computeOrbDamage_eq g orb enemy hheat hchp hbdp hboss hpwb
  refine ⟨?_, ?_, ?_, ?_⟩
  · simp only [resolveOrbHit, hcd]
  · simp only [resolveOrbHit, hcd]
  · simp only [resolveOrbHit]
    rcases hse : g.modifiers.slowEffect with _ | se <;>
      by_cases hal : (takeDamage (computeOrbDamage g orb enemy).1 enemy).alive = true <;>
      by_cases hkb : 0 < g.modifiers.knockbackForce <;>
      simp [hse, hal, hkb, applySlow, applyKnockback]
  · simp only [resolveOrbHit]
    rcases hse : g.modifiers.slowEffect with _ | se <;>
      by_cases hal : (takeDamage (computeOrbDamage g orb enemy).1 enemy).alive = true <;>
      by_cases hkb : 0 < g.modifiers.knockbackForce <;>
      simp [hse, hal, hkb, applySlow, applyKnockback]

/-- Witness for C1: a concrete hit (combo heat 7, two bounces, armed
wall bonus, elite target) computes exactly the claimed product. -/
theorem resolveOrbHit_damage_formula_witness :
    (resolveOrbHit
      { modifiers :=
          { orbSizeMultiplier := 1, slowEffect := none, comboDamagePerTier := 1 / 2,
            knockbackForce := 0, homingStrength := 0, explosion := none,
            splitOnImpact := false, tripleLaunch := false, damageMultiplier := 11 / 10,
            comboHeatDamagePercent := 1 / 250, bounceDamagePercent := 1 / 20,
            bossDamageMultiplier := 11 / 10, wallHitDamageBonusPercent := 3 / 20 },
        comboHeat := 7, playerDamageMultiplier := 5 / 4 }
      { damage := 1, radius := 16, bounceCount := 2, pendingWallDamageBonus := 3 / 20,
        splitOnImpact := false, alive := true }
      { hp := 30, maxHp := 30, shield := 0, alive := true, isBoss := false,
        isElite := true, slowTimer := 0, slowFactor := 1, knockback := 0 }).damage =
      ((1 : ℚ) * (11 / 10) * (1 + 7 * (1 / 250)) * (1 + 2 * (1 / 20)) * (11 / 10)
        * (1 + 3 / 20) + 1 * (1 / 2)) * (5 / 4) := by
  have h := resolveOrbHit_damage_formula
    { modifiers :=
        { orbSizeMultiplier := 1, slowEffect := none, comboDamagePerTier := 1 / 2,
          knockbackForce := 0, homingStrength := 0, explosion := none,
          splitOnImpact := false, tripleLaunch := false, damageMultiplier := 11 / 10,
          comboHeatDamagePercent := 1 / 250, bounceDamagePercent := 1 / 20,
          bossDamageMultiplier := 11 / 10, wallHitDamageBonusPercent := 3 / 20 },
      comboHeat := 7, playerDamageMultiplier := 5 / 4 }
    { damage := 1, radius := 16, bounceCount := 2, pendingWallDamageBonus := 3 / 20,
      splitOnImpact := false, alive := true }
    { hp := 30, maxHp := 30, shield := 0, alive := true, isBoss := false,
      isElite := true, slowTimer := 0, slowFactor := 1, knockback := 0 }
    (by norm_num) (by norm_num) (by norm_num) (by norm_num) (by norm_num)
  rw [h.1]
  norm_num [isBossOrElite]

/-- Claim C4: every wall bounce increments the projectile's
`bounceCount` by `1` and, when the run's `wallHitDamageBonusPercent`
modifier is positive, arms the one-shot `pendingWallDamageBonus`, which
is then consumed (zeroed) by the next collision's damage computation
regardless of the rest of the game state. -/
theorem onWallBounce_arms_bonus (mods : ModifierState) (orb : Orb) :
    (onWallBounce mods orb).bounceCount = orb.bounceCount + 1 ∧
    (0 < mods.wallHitDamageBonusPercent →
      (onWallBounce mods orb).pendingWallDamageBonus = mods.wallHitDamageBonusPercent ∧
      ∀ (g : GameCtx) (enemy : Enemy),
        (computeOrbDamage g (onWallBounce mods orb) enemy).2.pendingWallDamageBonus = 0) := by
  constructor
  · by_cases h : 0 < mods.wallHitDamageBonusPercent <;>
      simp [onWallBounce, emitWallHit, h]
  · intro h
    have harm : (onWallBounce mods orb).pendingWallDamageBonus = mods.wallHitDamageBonusPercent := by
      simp [onWallBounce, emitWallHit, h]
    refine ⟨harm, ?_⟩
    intro g enemy
    have hpos : 0 < (onWallBounce mods orb).pendingWallDamageBonus := harm ▸ h
    simp only [computeOrbDamage, applyWallBonus, if_pos hpos]

/-- Witness for C4: with a 15% wall-hit bonus active, a bounce arms the
orb's bonus and the next damage computation consumes it. -/
theorem onWallBounce_arms_bonus_witness :
    (onWallBounce
      { orbSizeMultiplier := 1, slowEffect := none, comboDamagePerTier := 0,
        knockbackForce := 0, homingStrength := 0, explosion := none,
        splitOnImpact := false, tripleLaunch := false, damageMultiplier := 1,
        comboHeatDamagePercent := 0, bounceDamagePercent := 0,
        bossDamageMultiplier := 1, wallHitDamageBonusPercent := 3 / 20 }
      { damage := 1, radius := 16, bounceCount := 0, pendingWallDamageBonus := 0,
        splitOnImpact := false, alive := true }).bounceCount = 0 + 1 ∧
    (onWallBounce
      { orbSizeMultiplier := 1, slowEffect := none, comboDamagePerTier := 0,
        knockbackForce := 0, homingStrength := 0, explosion := none,
        splitOnImpact := false, tripleLaunch := false, damageMultiplier := 1,
        comboHeatDamagePercent := 0, bounceDamagePercent := 0,
        bossDamageMultiplier := 1, wallHitDamageBonusPercent := 3 / 20 }
      { damage := 1, radius := 16, bounceCount := 0, pendingWallDamageBonus := 0,
        splitOnImpact := false, alive := true }).pendingWallDamageBonus = 3 / 20 := by
  have h := onWallBounce_arms_bonus
    { orbSizeMultiplier := 1, slowEffect := none, comboDamagePerTier := 0,
      knockbackForce := 0, homingStrength := 0, explosion := none,
      splitOnImpact := false, tripleLaunch := false, damageMultiplier := 1,
      comboHeatDamagePercent := 0, bounceDamagePercent := 0,
      bossDamageMultiplier := 1, wallHitDamageBonusPercent := 3 / 20 }
    { damage := 1, radius := 16, bounceCount := 0, pendingWallDamageBonus := 0,
      splitOnImpact := false, alive := true }
  exact ⟨h.1, (h.2 (by norm_num)).1⟩

/-- Witness for C10 (amended): with integer base hp `3`, level `6` and
a difficulty multiplier of `1`, the final hp honors the floor
guarantee `3 + 2 = 5`. -/
theorem spawnEnemyHp_floor_witness :
    (3 : ℚ) + (((6 : ℕ) / 3 : ℕ) : ℚ) ≤ spawnEnemyHp
      { level := 6, hpMultiplier := 1, hpBonus := 0, speedMultiplier := 1,
        countMultiplier := 1, cadenceMultiplier := 1 } 1 3 :=
  (spawnEnemyHp_floor
    { level := 6, hpMultiplier := 1, hpBonus := 0, speedMultiplier := 1,
      countMultiplier := 1, cadenceMultiplier := 1 } 1 3).2.2
    ⟨3, by norm_num⟩ (le_refl 1)

end Slingpunk
